import Mathlib

/-!
Verification of `celloracle/_velocyto_replacement/estimation.py`.

The module computes, for each cell `c`, the Pearson correlation between the
velocity vector `d[:, c]` and the expression difference `e[:, i] - e[:, c]`
for every other cell `i` (dense kernel) or for a caller-supplied neighbor
subset (sparse kernel), plus shape-validation wrappers and four
intentionally-unimplemented stub entry points.

The embedding works over exact real arithmetic: a numpy `float64` matrix of
shape `(rows, cols)` is modelled as a structure carrying the two dimensions
and a total entry function.  The numba kernels mutate a zero-initialized
output matrix; here each is rendered as the function giving the final value
of `out[c, i]`, and (for the claims about scheduling and about the sparse
write loop) also as an explicit fold over the written indices.
-/

/-- Real-valued matrix: models a numpy `float64` ndarray of shape
`(rows, cols)`; `entry j i` is `a[j, i]` (total function, only indices below
the bounds are meaningful). -/
structure MatR where
  rows : ℕ
  cols : ℕ
  entry : ℕ → ℕ → ℝ

/-- Integer-index matrix: models the numpy `intp` neighbor-index array
`ixs` of shape `(rows, cols)`. -/
structure MatN where
  rows : ℕ
  cols : ℕ
  entry : ℕ → ℕ → ℕ

/-- Shape of a real matrix, as numpy's `a.shape` pair. -/
def MatR.shape (m : MatR) : ℕ × ℕ := (m.rows, m.cols)

/-- Errors raised by the wrappers of `estimation.py`: `shapeMismatch` models
the `ValueError` "emat and dmat must have same shape, got {emat.shape} and
{dmat.shape}"; `neighborShapeMismatch` models the `ValueError` "ixs must have
ncells rows, got {ixs.shape[0]} but expected {emat.shape[1]}";
`unsupportedOperation` models the `NotImplementedError` of the four stub
entry points, carrying the variant name from the message. -/
inductive EstimationError where
  | shapeMismatch (ematShape dmatShape : ℕ × ℕ)
  | neighborShapeMismatch (got expected : ℕ)
  | unsupportedOperation (variant : String)
deriving DecidableEq

noncomputable section

/-- Kernel line `b_mean = np.mean(b)` with `b = d[:, c]`: mean of column `c`
of `d` over the `g` gene rows. -/
def bMean (g : ℕ) (d : ℕ → ℕ → ℝ) (c : ℕ) : ℝ :=
  (∑ j ∈ Finset.range g, d j c) / g

/-- Kernel line `b_centered = b - b_mean`: the centered velocity vector of
column `c`, at gene `j`. -/
def bCentered (g : ℕ) (d : ℕ → ℕ → ℝ) (c j : ℕ) : ℝ :=
  d j c - bMean g d c

/-- Kernel line `b_norm = np.sqrt(np.sum(b_centered * b_centered))`. -/
def bNorm (g : ℕ) (d : ℕ → ℕ → ℝ) (c : ℕ) : ℝ :=
  Real.sqrt (∑ j ∈ Finset.range g, bCentered g d c j * bCentered g d c j)

/-- Kernel lines `a_sum = Σ_j (e[j,i] - e[j,c]); a_mean = a_sum / rows`. -/
def aMean (g : ℕ) (e : ℕ → ℕ → ℝ) (c i : ℕ) : ℝ :=
  (∑ j ∈ Finset.range g, (e j i - e j c)) / g

/-- Kernel line `a_val = e[j, i] - e[j, c] - a_mean`. -/
def aVal (g : ℕ) (e : ℕ → ℕ → ℝ) (c i j : ℕ) : ℝ :=
  e j i - e j c - aMean g e c i

/-- Kernel accumulation `numerator += a_val * b_val` over the gene rows. -/
def corrNumerator (g : ℕ) (e d : ℕ → ℕ → ℝ) (c i : ℕ) : ℝ :=
  ∑ j ∈ Finset.range g, aVal g e c i j * bCentered g d c j

/-- Kernel lines `a_ss += a_val * a_val; a_norm = np.sqrt(a_ss)`. -/
def aNorm (g : ℕ) (e : ℕ → ℕ → ℝ) (c i : ℕ) : ℝ :=
  Real.sqrt (∑ j ∈ Finset.range g, aVal g e c i j * aVal g e c i j)

/-- Inner-loop body of both kernels: the value stored into `out[c, i]` once
the `b_norm` guard has passed:
`if a_norm > 1e-10: out[c, i] = numerator / (a_norm * b_norm)
 else: out[c, i] = 0.0`. -/
def corrValue (g : ℕ) (e d : ℕ → ℕ → ℝ) (c i : ℕ) : ℝ :=
  if aNorm g e c i > 1e-10 then
    corrNumerator g e d c i / (aNorm g e c i * bNorm g d c)
  else 0

/-- Final value of `out[c, i]` produced by `_colDeltaCor_numba` on a
zero-initialized output: if `b_norm < 1e-10` the column is skipped
(`continue`) and row `c` keeps its zeros; otherwise the inner loop writes
`corrValue` at every `i`. -/
def colDeltaCor_numba (g : ℕ) (e d : ℕ → ℕ → ℝ) (c i : ℕ) : ℝ :=
  if bNorm g d c < 1e-10 then 0 else corrValue g e d c i

/-- Write loop of `_colDeltaCorpartial_numba` for one row `c`, after the
`b_norm` guard: `for k in range(n_neighbors): i = neighbors[k];
out[c, i] = ...`, folded left over `k` on the zero row. -/
def sparseRow (g nn : ℕ) (e d : ℕ → ℕ → ℝ) (ixs : ℕ → ℕ → ℕ) (c : ℕ) : ℕ → ℝ :=
  (List.range nn).foldl
    (fun out k => Function.update out (ixs c k) (corrValue g e d c (ixs c k)))
    (fun _ => 0)

/-- Final value of `out[c, i]` produced by `_colDeltaCorpartial_numba` on a
zero-initialized output (`nn` is `ixs.shape[1]`, the neighbor count). -/
def colDeltaCorpartial_numba (g nn : ℕ) (e d : ℕ → ℕ → ℝ) (ixs : ℕ → ℕ → ℕ)
    (c i : ℕ) : ℝ :=
  if bNorm g d c < 1e-10 then 0 else sparseRow g nn e d ixs c i

/-- Column indices read by `_colDeltaCorpartial_numba` in row `c`: when the
`b_norm` guard passes, the loop `for k in range(n_neighbors)` sets
`i = neighbors[k]` and indexes `e[j, i]` and `out[c, i]` with it, with no
bounds check on the value. -/
def sparseVisited (g nn : ℕ) (d : ℕ → ℕ → ℝ) (ixs : ℕ → ℕ → ℕ) (c : ℕ) :
    List ℕ :=
  if bNorm g d c < 1e-10 then [] else (List.range nn).map (ixs c)

/-- Processing of one column `c` by `_colDeltaCor_numba` as a transformation
of the output matrix: skip when `b_norm < 1e-10`, otherwise overwrite
`out[c, i]` for every `i < n` (used to state schedule-independence). -/
def denseStep (g n : ℕ) (e d : ℕ → ℕ → ℝ) (out : ℕ → ℕ → ℝ) (c : ℕ) :
    ℕ → ℕ → ℝ :=
  if bNorm g d c < 1e-10 then out
  else fun p i => if p = c ∧ i < n then corrValue g e d c i else out p i

/-- The dense kernel run on a zero-initialized output with its `prange`
columns processed in an arbitrary schedule `order`. -/
def denseSchedule (g n : ℕ) (e d : ℕ → ℕ → ℝ) (order : List ℕ) : ℕ → ℕ → ℝ :=
  order.foldl (denseStep g n e d) (fun _ _ => 0)

/-- Write loop of `_colDeltaCorpartial_numba` for one row `c` folded on an
arbitrary incoming row (generalizes `sparseRow`, whose incoming row is the
zero row). -/
def sparseRowFold (g nn : ℕ) (e d : ℕ → ℕ → ℝ) (ixs : ℕ → ℕ → ℕ) (c : ℕ)
    (row : ℕ → ℝ) : ℕ → ℝ :=
  (List.range nn).foldl
    (fun out k => Function.update out (ixs c k) (corrValue g e d c (ixs c k)))
    row

/-- Processing of one column `c` by `_colDeltaCorpartial_numba` as a
transformation of the output matrix: skip when `b_norm < 1e-10`, otherwise
run the neighbor write loop over row `c` (used to state
schedule-independence of the sparse kernel). -/
def sparseStep (g nn : ℕ) (e d : ℕ → ℕ → ℝ) (ixs : ℕ → ℕ → ℕ)
    (out : ℕ → ℕ → ℝ) (c : ℕ) : ℕ → ℕ → ℝ :=
  if bNorm g d c < 1e-10 then out
  else fun p i =>
    if p = c then sparseRowFold g nn e d ixs c (out c) i else out p i

/-- The sparse kernel run on a zero-initialized output with its `prange`
columns processed in an arbitrary schedule `order`. -/
def sparseSchedule (g nn : ℕ) (e d : ℕ → ℕ → ℝ) (ixs : ℕ → ℕ → ℕ)
    (order : List ℕ) : ℕ → ℕ → ℝ :=
  order.foldl (sparseStep g nn e d ixs) (fun _ _ => 0)

/-- Wrapper `colDeltaCor(emat, dmat, threads)`: validates
`emat.shape != dmat.shape` (raising the shape `ValueError`), allocates
`out = np.zeros((ncells, ncells))`, runs the kernel, returns `out`.  The
`threads` argument is kept for API compatibility and never used. -/
def colDeltaCor (emat dmat : MatR) (threads : Option ℕ) :
    Except EstimationError MatR :=
  if emat.shape ≠ dmat.shape then
    Except.error (EstimationError.shapeMismatch emat.shape dmat.shape)
  else
    Except.ok
      { rows := emat.cols, cols := emat.cols,
        entry := fun c i => colDeltaCor_numba emat.rows emat.entry dmat.entry c i }

/-- Wrapper `colDeltaCorpartial(emat, dmat, ixs, threads)`: validates
`emat.shape != dmat.shape` first, then `ixs.shape[0] != emat.shape[1]`,
allocates the zero output, runs the partial kernel, returns `out`.  The
validation never inspects the values stored in `ixs`. -/
def colDeltaCorpartial (emat dmat : MatR) (ixs : MatN) (threads : Option ℕ) :
    Except EstimationError MatR :=
  if emat.shape ≠ dmat.shape then
    Except.error (EstimationError.shapeMismatch emat.shape dmat.shape)
  else if ixs.rows ≠ emat.cols then
    Except.error (EstimationError.neighborShapeMismatch ixs.rows emat.cols)
  else
    Except.ok
      { rows := emat.cols, cols := emat.cols,
        entry := fun c i =>
          colDeltaCorpartial_numba emat.rows ixs.cols emat.entry dmat.entry
            ixs.entry c i }

/-- Stub `colDeltaCorLog10`: unconditionally raises `NotImplementedError`
naming the variant. -/
def colDeltaCorLog10 (emat dmat : MatR) (threads : Option ℕ) (psc : ℝ) :
    Except EstimationError MatR :=
  Except.error (EstimationError.unsupportedOperation "colDeltaCorLog10")

/-- Stub `colDeltaCorLog10partial`: unconditionally raises
`NotImplementedError` naming the variant. -/
def colDeltaCorLog10partial (emat dmat : MatR) (ixs : MatN)
    (threads : Option ℕ) (psc : ℝ) : Except EstimationError MatR :=
  Except.error (EstimationError.unsupportedOperation "colDeltaCorLog10partial")

/-- Stub `colDeltaCorSqrt`: unconditionally raises `NotImplementedError`
naming the variant. -/
def colDeltaCorSqrt (emat dmat : MatR) (threads : Option ℕ) (psc : ℝ) :
    Except EstimationError MatR :=
  Except.error (EstimationError.unsupportedOperation "colDeltaCorSqrt")

/-- Stub `colDeltaCorSqrtpartial`: unconditionally raises
`NotImplementedError` naming the variant. -/
def colDeltaCorSqrtpartial (emat dmat : MatR) (ixs : MatN)
    (threads : Option ℕ) (psc : ℝ) : Except EstimationError MatR :=
  Except.error (EstimationError.unsupportedOperation "colDeltaCorSqrtpartial")

/-- Entry value described by the specification text of the dense kernel,
word for word: row left zero when `b_norm < 1e-10`; `Out[c, i] = 0` when
`a_norm < 1e-10`, and `numerator / (a_norm * b_norm)` otherwise. -/
def specDenseEntry (g : ℕ) (e d : ℕ → ℕ → ℝ) (c i : ℕ) : ℝ :=
  if bNorm g d c < 1e-10 then 0
  else if aNorm g e c i < 1e-10 then 0
  else corrNumerator g e d c i / (aNorm g e c i * bNorm g d c)

/-- Specification entry with the `a_norm` boundary amended to match the
code: `Out[c, i] = 0` when `a_norm ≤ 1e-10` (the code tests
`a_norm > 1e-10` for the division branch), and
`numerator / (a_norm * b_norm)` when `a_norm > 1e-10`. -/
def specDenseEntryAmended (g : ℕ) (e d : ℕ → ℕ → ℝ) (c i : ℕ) : ℝ :=
  if bNorm g d c < 1e-10 then 0
  else if aNorm g e c i ≤ 1e-10 then 0
  else corrNumerator g e d c i / (aNorm g e c i * bNorm g d c)

end

/-! ### Concrete matrices used in witnesses and counterexamples -/

/-- Concrete expression matrix of the spec's 2-gene, 2-cell scenario:
`E = [[0, 1], [0, 3]]` (gene-major, columns are cells). -/
def E4 : MatR :=
  ⟨2, 2, fun j i => if j = 0 then (if i = 0 then 0 else 1)
                    else (if i = 0 then 0 else 3)⟩

/-- Concrete velocity matrix of the spec's 2-gene, 2-cell scenario:
`D = [[1, 2], [2, 4]]`. -/
def D4 : MatR :=
  ⟨2, 2, fun j i => if j = 0 then (if i = 0 then 1 else 2)
                    else (if i = 0 then 2 else 4)⟩

/-- A `(50, 10)` expression matrix, used to exhibit a shape mismatch. -/
def Emis : MatR := ⟨50, 10, fun _ _ => 0⟩

/-- A `(40, 10)` velocity matrix: differing row count from `Emis`. -/
def Dmis : MatR := ⟨40, 10, fun _ _ => 0⟩

/-- A `(4, 10)` matrix (10 cells), used for the neighbor-row-count check. -/
def Em10 : MatR := ⟨4, 10, fun _ _ => 0⟩

/-- A neighbor matrix with 5 rows, mismatching the 10 cells of `Em10`. -/
def ixsShort : MatN := ⟨5, 1, fun _ _ => 0⟩

/-- A neighbor matrix for 2 cells whose row `c` enumerates both cells. -/
def ixsAll : MatN := ⟨2, 2, fun _ k => k⟩

/-- A neighbor matrix with the correct row count (2) but an out-of-range
column index 99 in every slot. -/
def ixsBad : MatN := ⟨2, 1, fun _ _ => 99⟩

/-! ### Helper lemmas -/

/-- On the diagonal the expression difference `e[:, c] - e[:, c]` vanishes,
so each centered value `a_val` is zero. -/
lemma aVal_diag (g : ℕ) (e : ℕ → ℕ → ℝ) (c j : ℕ) : aVal g e c c j = 0 := by
  unfold aVal aMean
  simp

/-- On the diagonal `a_ss = 0`, hence `a_norm = 0`. -/
lemma aNorm_diag (g : ℕ) (e : ℕ → ℕ → ℝ) (c : ℕ) : aNorm g e c c = 0 := by
  unfold aNorm
  simp [aVal_diag, Real.sqrt_zero]

/-- The inner-loop value on the diagonal is zero: `a_norm = 0` fails the
`a_norm > 1e-10` test. -/
lemma corrValue_diag (g : ℕ) (e d : ℕ → ℕ → ℝ) (c : ℕ) :
    corrValue g e d c c = 0 := by
  unfold corrValue
  rw [aNorm_diag]
  norm_num

/-- Diagonal entries of the dense kernel output are zero. -/
lemma colDeltaCor_numba_diag (g : ℕ) (e d : ℕ → ℕ → ℝ) (c : ℕ) :
    colDeltaCor_numba g e d c c = 0 := by
  unfold colDeltaCor_numba
  rw [corrValue_diag]
  simp

/-! ### Claim theorems: stubs and validation -/

/-- C7: each of the four transformed-correlation entry points always fails
with `UnsupportedOperation` naming the variant, for every input, and never
returns a result. -/
theorem stub_entry_points_always_unsupported :
    ∀ (emat dmat : MatR) (ixs : MatN) (t : Option ℕ) (psc : ℝ),
      colDeltaCorLog10 emat dmat t psc =
        Except.error (EstimationError.unsupportedOperation "colDeltaCorLog10") ∧
      colDeltaCorLog10partial emat dmat ixs t psc =
        Except.error (EstimationError.unsupportedOperation "colDeltaCorLog10partial") ∧
      colDeltaCorSqrt emat dmat t psc =
        Except.error (EstimationError.unsupportedOperation "colDeltaCorSqrt") ∧
      colDeltaCorSqrtpartial emat dmat ixs t psc =
        Except.error (EstimationError.unsupportedOperation "colDeltaCorSqrtpartial") := by
  intro emat dmat ixs t psc
  exact ⟨rfl, rfl, rfl, rfl⟩

/-- C5: the dense and sparse wrappers fail with `ShapeMismatch` if and only
if `E.shape ≠ D.shape`, and the error carries the two shapes; on failure no
`Except.ok` matrix is produced. -/
theorem shape_mismatch_error_iff :
    ∀ (emat dmat : MatR) (ixs : MatN) (t : Option ℕ),
      ((∃ s₁ s₂, colDeltaCor emat dmat t =
          Except.error (EstimationError.shapeMismatch s₁ s₂)) ↔
        emat.shape ≠ dmat.shape) ∧
      (emat.shape ≠ dmat.shape →
        colDeltaCor emat dmat t =
          Except.error (EstimationError.shapeMismatch emat.shape dmat.shape)) ∧
      ((∃ s₁ s₂, colDeltaCorpartial emat dmat ixs t =
          Except.error (EstimationError.shapeMismatch s₁ s₂)) ↔
        emat.shape ≠ dmat.shape) ∧
      (emat.shape ≠ dmat.shape →
        colDeltaCorpartial emat dmat ixs t =
          Except.error (EstimationError.shapeMismatch emat.shape dmat.shape)) ∧
      (emat.shape ≠ dmat.shape → ∀ M, colDeltaCor emat dmat t ≠ Except.ok M) := by
  intro emat dmat ixs t
  by_cases h : emat.shape = dmat.shape
  · refine ⟨?_, ?_, ?_, ?_, ?_⟩
    · constructor
      · rintro ⟨s₁, s₂, hs⟩
        by_cases h2 : ixs.rows = emat.cols <;>
          simp [colDeltaCor, h] at hs
      · intro hne; exact absurd h hne
    · intro hne; exact absurd h hne
    · constructor
      · rintro ⟨s₁, s₂, hs⟩
        by_cases h2 : ixs.rows = emat.cols <;>
          simp [ colDeltaCorpartial, h, h2] at hs
      · intro hne; exact absurd h hne
    · intro hne; exact absurd h hne
    · intro hne; exact absurd h hne
  · refine ⟨?_, ?_, ?_, ?_, ?_⟩
    · constructor
      · intro _; exact h
      · intro _; exact ⟨emat.shape, dmat.shape, by simp [colDeltaCor, h]⟩
    · intro _; simp [colDeltaCor, h]
    · constructor
      · intro _; exact h
      · intro _; exact ⟨emat.shape, dmat.shape, by simp [ colDeltaCorpartial, h]⟩
    · intro _; simp [ colDeltaCorpartial, h]
    · intro _ M; simp [colDeltaCor, h]

/-- C5 witness: `Emis` is `(50, 10)` and `Dmis` is `(40, 10)`; the dense
wrapper fails with `ShapeMismatch` carrying both shapes. -/
theorem shape_mismatch_error_iff_witness :
    Emis.shape ≠ Dmis.shape ∧
      colDeltaCor Emis Dmis none =
        Except.error (EstimationError.shapeMismatch (50, 10) (40, 10)) :=
  ⟨by decide,
   (shape_mismatch_error_iff Emis Dmis ixsAll none).2.1 (by decide)⟩

/-- C6: given `E.shape = D.shape`, the sparse wrapper fails with
`NeighborShapeMismatch` if and only if the neighbor matrix row count differs
from the cell count, and the error carries both counts; on failure no
`Except.ok` matrix is produced. -/
theorem neighbor_shape_mismatch_error_iff :
    ∀ (emat dmat : MatR) (ixs : MatN) (t : Option ℕ),
      emat.shape = dmat.shape →
      (((∃ a b, colDeltaCorpartial emat dmat ixs t =
          Except.error (EstimationError.neighborShapeMismatch a b)) ↔
        ixs.rows ≠ emat.cols) ∧
      (ixs.rows ≠ emat.cols →
        colDeltaCorpartial emat dmat ixs t =
          Except.error
            (EstimationError.neighborShapeMismatch ixs.rows emat.cols)) ∧
      (ixs.rows ≠ emat.cols →
        ∀ M, colDeltaCorpartial emat dmat ixs t ≠ Except.ok M)) := by
  intro emat dmat ixs t h
  by_cases h2 : ixs.rows = emat.cols
  · refine ⟨?_, ?_, ?_⟩
    · constructor
      · rintro ⟨a, b, hs⟩
        simp [ colDeltaCorpartial, h, h2] at hs
      · intro hne; exact absurd h2 hne
    · intro hne; exact absurd h2 hne
    · intro hne; exact absurd h2 hne
  · refine ⟨?_, ?_, ?_⟩
    · constructor
      · intro _; exact h2
      · intro _; exact ⟨ixs.rows, emat.cols, by simp [ colDeltaCorpartial, h, h2]⟩
    · intro _; simp [ colDeltaCorpartial, h, h2]
    · intro _ M; simp [ colDeltaCorpartial, h, h2]

/-- C6 witness: a 5-row neighbor matrix against the 10-cell `Em10` makes
the sparse wrapper fail with `NeighborShapeMismatch 5 10`. -/
theorem neighbor_shape_mismatch_error_iff_witness :
    Em10.shape = Em10.shape ∧ ixsShort.rows ≠ Em10.cols ∧
      colDeltaCorpartial Em10 Em10 ixsShort none =
        Except.error (EstimationError.neighborShapeMismatch 5 10) :=
  ⟨rfl, by decide,
   (neighbor_shape_mismatch_error_iff Em10 Em10 ixsShort none rfl).2.1
     (by decide)⟩

/-! ### Claim theorems: dense kernel vs. its specification text -/

/-- C1 (amended): the dense kernel computes exactly the specified per-entry
steps, with the `a_norm` boundary read from the code: the entry is `0` when
`a_norm ≤ 1e-10` and `numerator / (a_norm * b_norm)` when
`a_norm > 1e-10`. -/
theorem dense_entry_matches_amended_spec :
    ∀ (g : ℕ) (e d : ℕ → ℕ → ℝ) (c i : ℕ),
      colDeltaCor_numba g e d c i = specDenseEntryAmended g e d c i := by
  intro g e d c i
  unfold colDeltaCor_numba specDenseEntryAmended corrValue
  by_cases hb : bNorm g d c < 1e-10
  · simp [hb]
  · by_cases ha : aNorm g e c i ≤ 1e-10
    · simp [hb, ha, not_lt.mpr ha]
    · push_neg at ha
      simp [hb, not_le.mpr ha, ha]

/-- Boundary value `t = sqrt(5e-21)`: two centered entries `±t` give a sum
of squares of exactly `1e-20`, hence `a_norm = 1e-10` exactly. -/
noncomputable def tbd : ℝ := Real.sqrt 5e-21

lemma tbd_sq : tbd * tbd = 5e-21 := Real.mul_self_sqrt (by norm_num)

lemma tbd_pos : 0 < tbd := Real.sqrt_pos.mpr (by norm_num)

/-- Expression matrix of the boundary counterexample: column 0 is zero,
column 1 is `[t, -t]`. -/
noncomputable def Ebd : MatR :=
  ⟨2, 2, fun j i => if i = 0 then 0 else if j = 0 then tbd else -tbd⟩

/-- Velocity matrix of the boundary counterexample: every column is
`[1, -1]`, giving `b_norm = sqrt 2`. -/
def Dbd : MatR := ⟨2, 2, fun j _ => if j = 0 then 1 else -1⟩

lemma Dbd_bNorm : bNorm 2 Dbd.entry 0 = Real.sqrt 2 := by
  unfold bNorm bCentered bMean
  norm_num [Dbd, Finset.sum_range_succ]

lemma Dbd_bNorm_not_small : ¬ bNorm 2 Dbd.entry 0 < 1e-10 := by
  rw [Dbd_bNorm, not_lt]
  exact (Real.le_sqrt (by norm_num) (by norm_num)).mpr (by norm_num)

lemma Ebd_aMean : aMean 2 Ebd.entry 0 1 = 0 := by
  unfold aMean
  rw [Finset.sum_range_succ, Finset.sum_range_succ, Finset.sum_range_zero]
  have e01 : Ebd.entry 0 1 = tbd := rfl
  have e11 : Ebd.entry 1 1 = -tbd := rfl
  have e00 : Ebd.entry 0 0 = 0 := rfl
  have e10 : Ebd.entry 1 0 = 0 := rfl
  rw [e01, e11, e00, e10]
  norm_num

lemma Ebd_aVal0 : aVal 2 Ebd.entry 0 1 0 = tbd := by
  unfold aVal
  rw [Ebd_aMean]
  show tbd - 0 - 0 = tbd
  ring

lemma Ebd_aVal1 : aVal 2 Ebd.entry 0 1 1 = -tbd := by
  unfold aVal
  rw [Ebd_aMean]
  show -tbd - 0 - 0 = -tbd
  ring

lemma Ebd_aNorm : aNorm 2 Ebd.entry 0 1 = 1e-10 := by
  unfold aNorm
  rw [Finset.sum_range_succ, Finset.sum_range_succ, Finset.sum_range_zero,
    Ebd_aVal0, Ebd_aVal1]
  rw [show (0 + tbd * tbd + -tbd * -tbd : ℝ) = 2 * (tbd * tbd) by ring, tbd_sq]
  rw [show (2 * (5e-21 : ℝ)) = (1e-10) ^ 2 by norm_num]
  exact Real.sqrt_sq (by norm_num)

lemma Ebd_numerator :
    corrNumerator 2 Ebd.entry Dbd.entry 0 1 = 2 * tbd := by
  unfold corrNumerator
  have hb0 : bCentered 2 Dbd.entry 0 0 = 1 := by
    unfold bCentered bMean
    norm_num [Dbd, Finset.sum_range_succ]
  have hb1 : bCentered 2 Dbd.entry 0 1 = -1 := by
    unfold bCentered bMean
    norm_num [Dbd, Finset.sum_range_succ]
  rw [Finset.sum_range_succ, Finset.sum_range_succ, Finset.sum_range_zero,
    Ebd_aVal0, Ebd_aVal1, hb0, hb1]
  ring

/-- C1 counterexample: at the boundary input `Ebd`, `Dbd` the code stores
`0` in `out[0, 1]` (the test `a_norm > 1e-10` fails at `a_norm = 1e-10`
exactly), while the claimed rule "`0` only when `a_norm < 1e-10`, otherwise
`numerator / (a_norm * b_norm)`" prescribes the value `1`. -/
theorem dense_entry_spec_boundary_counterexample :
    colDeltaCor_numba 2 Ebd.entry Dbd.entry 0 1 = 0 ∧
      specDenseEntry 2 Ebd.entry Dbd.entry 0 1 = 1 ∧
      colDeltaCor_numba 2 Ebd.entry Dbd.entry 0 1 ≠
        specDenseEntry 2 Ebd.entry Dbd.entry 0 1 := by
  have h1 : colDeltaCor_numba 2 Ebd.entry Dbd.entry 0 1 = 0 := by
    unfold colDeltaCor_numba corrValue
    rw [if_neg Dbd_bNorm_not_small, Ebd_aNorm]
    norm_num
  have h2 : specDenseEntry 2 Ebd.entry Dbd.entry 0 1 = 1 := by
    unfold specDenseEntry
    rw [if_neg Dbd_bNorm_not_small, Ebd_aNorm, if_neg (by norm_num),
      Ebd_numerator, Dbd_bNorm]
    have hmul : tbd * Real.sqrt 2 = 1e-10 := by
      unfold tbd
      rw [← Real.sqrt_mul (by norm_num)]
      rw [show (5e-21 : ℝ) * 2 = (1e-10) ^ 2 by norm_num]
      exact Real.sqrt_sq (by norm_num)
    have hss : Real.sqrt 2 * Real.sqrt 2 = 2 := Real.mul_self_sqrt (by norm_num)
    rw [← hmul, mul_assoc, hss, mul_comm tbd 2]
    exact div_self (mul_pos two_pos tbd_pos).ne'
  exact ⟨h1, h2, by rw [h1, h2]; norm_num⟩

/-! ### Claim theorems: diagonal -/

/-- Result matrix of the dense wrapper on the concrete scenario input. -/
noncomputable def M4 : MatR :=
  { rows := E4.cols, cols := E4.cols,
    entry := fun c i => colDeltaCor_numba E4.rows E4.entry D4.entry c i }

/-- C9: every diagonal entry of the matrix returned by the dense wrapper is
exactly zero: for `i = c` the streamed difference vanishes, `a_norm = 0`
fails the `a_norm > 1e-10` test, and skipped columns leave their zero row
untouched. -/
theorem dense_diagonal_zero :
    ∀ (emat dmat : MatR) (t : Option ℕ) (M : MatR),
      colDeltaCor emat dmat t = Except.ok M → ∀ c, M.entry c c = 0 := by
  intro emat dmat t M h c
  unfold colDeltaCor at h
  by_cases hs : emat.shape ≠ dmat.shape
  · rw [if_pos hs] at h
    exact absurd h (by simp)
  · rw [if_neg hs] at h
    injection h with h'
    rw [← h']
    exact colDeltaCor_numba_diag emat.rows emat.entry dmat.entry c

/-- C9 witness: the dense wrapper on the concrete scenario matrices returns
`M4`, whose `(0, 0)` entry is zero. -/
theorem dense_diagonal_zero_witness :
    colDeltaCor E4 D4 none = Except.ok M4 ∧ M4.entry 0 0 = 0 := by
  have hok : colDeltaCor E4 D4 none = Except.ok M4 := by
    unfold colDeltaCor
    rw [if_neg (by decide : ¬ E4.shape ≠ D4.shape)]
    rfl
  exact ⟨hok, dense_diagonal_zero E4 D4 none M4 hok 0⟩

/-! ### Characterization of the sparse write loop -/

lemma foldl_update_not_mem (ix : ℕ → ℕ) (F : ℕ → ℝ) (i : ℕ) :
    ∀ (l : List ℕ) (init : ℕ → ℝ), (∀ k ∈ l, ix k ≠ i) →
      (l.foldl (fun out k => Function.update out (ix k) (F (ix k))) init) i
        = init i := by
  intro l
  induction l with
  | nil => intro init _; rfl
  | cons a l ih =>
    intro init h
    rw [List.foldl_cons, ih _ (fun k hk => h k (List.mem_cons_of_mem a hk))]
    exact Function.update_noteq (h a (List.mem_cons_self a l)).symm _ _

lemma foldl_update_mem (ix : ℕ → ℕ) (F : ℕ → ℝ) (i : ℕ) :
    ∀ (l : List ℕ) (init : ℕ → ℝ), (∃ k ∈ l, ix k = i) →
      (l.foldl (fun out k => Function.update out (ix k) (F (ix k))) init) i
        = F i := by
  intro l
  induction l with
  | nil =>
    rintro init ⟨k, hk, _⟩
    exact absurd hk (List.not_mem_nil k)
  | cons a l ih =>
    rintro init ⟨k, hk, hki⟩
    rw [List.foldl_cons]
    by_cases hl : ∃ k ∈ l, ix k = i
    · exact ih _ hl
    · have hka : k = a := by
        rcases List.mem_cons.mp hk with h | h
        · exact h
        · exact absurd ⟨k, h, hki⟩ hl
      push_neg at hl
      rw [foldl_update_not_mem ix F i l _ hl,
        show ix a = i from hka ▸ hki, Function.update_same]

/-- The final row of the sparse write loop holds `corrValue` at every index
some neighbor slot maps to. -/
lemma sparseRow_eq_of_mem {g nn : ℕ} {e d : ℕ → ℕ → ℝ} {ixs : ℕ → ℕ → ℕ}
    {c i : ℕ} (h : ∃ k, k < nn ∧ ixs c k = i) :
    sparseRow g nn e d ixs c i = corrValue g e d c i := by
  unfold sparseRow
  obtain ⟨k, hk, hki⟩ := h
  exact foldl_update_mem (ixs c) (fun x => corrValue g e d c x) i
    (List.range nn) (fun _ => 0) ⟨k, List.mem_range.mpr hk, hki⟩

/-- The final row of the sparse write loop is zero at every index no
neighbor slot maps to. -/
lemma sparseRow_eq_of_not_mem {g nn : ℕ} {e d : ℕ → ℕ → ℝ} {ixs : ℕ → ℕ → ℕ}
    {c i : ℕ} (h : ∀ k, k < nn → ixs c k ≠ i) :
    sparseRow g nn e d ixs c i = 0 := by
  unfold sparseRow
  exact foldl_update_not_mem (ixs c) (fun x => corrValue g e d c x) i
    (List.range nn) (fun _ => 0) (fun k hk => h k (List.mem_range.mp hk))

/-- C3: the sparse kernel is the dense kernel restricted to the visited
indices: at every `(c, i)` with `i` listed in row `c` of the neighbor matrix
the two outputs agree exactly, and at every unlisted `i` the sparse output
is exactly zero.  (With full coverage of every row the outputs therefore
coincide.) -/
theorem sparse_refines_dense :
    ∀ (g nn : ℕ) (e d : ℕ → ℕ → ℝ) (ixs : ℕ → ℕ → ℕ) (c i : ℕ),
      ((∃ k, k < nn ∧ ixs c k = i) →
        colDeltaCorpartial_numba g nn e d ixs c i =
          colDeltaCor_numba g e d c i) ∧
      ((∀ k, k < nn → ixs c k ≠ i) →
        colDeltaCorpartial_numba g nn e d ixs c i = 0) := by
  intro g nn e d ixs c i
  constructor
  · intro h
    unfold colDeltaCorpartial_numba colDeltaCor_numba
    by_cases hb : bNorm g d c < 1e-10
    · simp [hb]
    · rw [if_neg hb, if_neg hb, sparseRow_eq_of_mem h]
  · intro h
    unfold colDeltaCorpartial_numba
    by_cases hb : bNorm g d c < 1e-10
    · simp [hb]
    · rw [if_neg hb, sparseRow_eq_of_not_mem h]

/-- C3 witness: on the concrete scenario input with the all-neighbors matrix
`ixsAll`, index 1 is listed in row 0 and the sparse and dense kernels agree
at `(0, 1)`. -/
theorem sparse_refines_dense_witness :
    (∃ k, k < 2 ∧ ixsAll.entry 0 k = 1) ∧
      colDeltaCorpartial_numba 2 2 E4.entry D4.entry ixsAll.entry 0 1 =
        colDeltaCor_numba 2 E4.entry D4.entry 0 1 :=
  ⟨⟨1, by norm_num, rfl⟩,
   (sparse_refines_dense 2 2 E4.entry D4.entry ixsAll.entry 0 1).1
     ⟨1, by norm_num, rfl⟩⟩

/-! ### Range bounds (Cauchy-Schwarz) -/

/-- Cauchy-Schwarz for the streamed sums: the numerator is bounded in
absolute value by `a_norm * b_norm`. -/
lemma abs_corrNumerator_le (g : ℕ) (e d : ℕ → ℕ → ℝ) (c i : ℕ) :
    |corrNumerator g e d c i| ≤ aNorm g e c i * bNorm g d c := by
  unfold corrNumerator aNorm bNorm
  have key := Real.sum_mul_le_sqrt_mul_sqrt (Finset.range g)
    (fun j => aVal g e c i j) (fun j => bCentered g d c j)
  have keyneg := Real.sum_mul_le_sqrt_mul_sqrt (Finset.range g)
    (fun j => -aVal g e c i j) (fun j => bCentered g d c j)
  simp only [pow_two, neg_mul, mul_neg, neg_neg, Finset.sum_neg_distrib] at key keyneg
  rw [abs_le]
  exact ⟨by linarith [keyneg], key⟩

/-- Once the `b_norm` guard has passed, the inner-loop value lies in
`[-1, 1]`: the `a_norm ≤ 1e-10` branch stores `0`, and the division branch
is a Pearson coefficient with positive denominator. -/
lemma corrValue_bounds (g : ℕ) (e d : ℕ → ℕ → ℝ) (c i : ℕ)
    (hb : ¬ bNorm g d c < 1e-10) :
    -1 ≤ corrValue g e d c i ∧ corrValue g e d c i ≤ 1 := by
  unfold corrValue
  by_cases ha : aNorm g e c i > 1e-10
  · rw [if_pos ha]
    have hbn : 0 < bNorm g d c := lt_of_lt_of_le (by norm_num) (not_lt.mp hb)
    have han : 0 < aNorm g e c i := lt_trans (by norm_num) ha
    have hd : 0 < aNorm g e c i * bNorm g d c := mul_pos han hbn
    have habs := abs_corrNumerator_le g e d c i
    rw [abs_le] at habs
    constructor
    · rw [le_div_iff₀ hd]
      linarith [habs.1]
    · rw [div_le_one₀ hd]
      exact habs.2
  · rw [if_neg ha]
    norm_num

/-- C2: every entry of both kernel outputs lies in `[-1, 1]` (the
zero-variance branches store exactly `0`, which is inside the interval);
in this exact-real model no entry can be `NaN` or infinite, and the
division branch is only taken with a strictly positive denominator. -/
theorem entries_in_unit_interval :
    ∀ (g nn : ℕ) (e d : ℕ → ℕ → ℝ) (ixs : ℕ → ℕ → ℕ) (c i : ℕ),
      colDeltaCor_numba g e d c i ∈ Set.Icc (-1 : ℝ) 1 ∧
      colDeltaCorpartial_numba g nn e d ixs c i ∈ Set.Icc (-1 : ℝ) 1 := by
  intro g nn e d ixs c i
  rw [Set.mem_Icc, Set.mem_Icc]
  constructor
  · unfold colDeltaCor_numba
    by_cases hb : bNorm g d c < 1e-10
    · rw [if_pos hb]; norm_num
    · rw [if_neg hb]
      exact corrValue_bounds g e d c i hb
  · unfold colDeltaCorpartial_numba
    by_cases hb : bNorm g d c < 1e-10
    · rw [if_pos hb]; norm_num
    · rw [if_neg hb]
      by_cases hm : ∃ k, k < nn ∧ ixs c k = i
      · rw [sparseRow_eq_of_mem hm]
        exact corrValue_bounds g e d c i hb
      · push_neg at hm
        rw [sparseRow_eq_of_not_mem hm]
        norm_num

/-! ### Determinism and schedule independence -/

lemma denseFold_skip (g n : ℕ) (e d : ℕ → ℕ → ℝ) (c i : ℕ)
    (hb : bNorm g d c < 1e-10) :
    ∀ (order : List ℕ) (init : ℕ → ℕ → ℝ),
      (order.foldl (denseStep g n e d) init) c i = init c i := by
  intro order
  induction order with
  | nil => intro init; rfl
  | cons a l ih =>
    intro init
    rw [List.foldl_cons, ih]
    unfold denseStep
    by_cases hba : bNorm g d a < 1e-10
    · rw [if_pos hba]
    · rw [if_neg hba]
      have hca : c ≠ a := fun h => hba (h ▸ hb)
      simp [hca]

lemma denseFold_notmem (g n : ℕ) (e d : ℕ → ℕ → ℝ) (c i : ℕ) :
    ∀ (order : List ℕ) (init : ℕ → ℕ → ℝ), c ∉ order →
      (order.foldl (denseStep g n e d) init) c i = init c i := by
  intro order
  induction order with
  | nil => intro init _; rfl
  | cons a l ih =>
    intro init hc
    rw [List.foldl_cons, ih _ (fun h => hc (List.mem_cons_of_mem a h))]
    have hca : c ≠ a := fun h => hc (h ▸ List.mem_cons_self a l)
    unfold denseStep
    by_cases hba : bNorm g d a < 1e-10
    · rw [if_pos hba]
    · rw [if_neg hba]
      simp [hca]

lemma denseFold_write (g n : ℕ) (e d : ℕ → ℕ → ℝ) (c i : ℕ)
    (hb : ¬ bNorm g d c < 1e-10) (hi : i < n) :
    ∀ (order : List ℕ) (init : ℕ → ℕ → ℝ), c ∈ order →
      (order.foldl (denseStep g n e d) init) c i = corrValue g e d c i := by
  intro order
  induction order with
  | nil =>
    intro init hc
    exact absurd hc (List.not_mem_nil c)
  | cons a l ih =>
    intro init hc
    rw [List.foldl_cons]
    by_cases hcl : c ∈ l
    · exact ih _ hcl
    · have hca : c = a := by
        rcases List.mem_cons.mp hc with h | h
        · exact h
        · exact absurd h hcl
      subst hca
      rw [denseFold_notmem g n e d c i l _ hcl]
      unfold denseStep
      rw [if_neg hb]
      simp [hi]

lemma sparseRowFold_mem {g nn : ℕ} {e d : ℕ → ℕ → ℝ} {ixs : ℕ → ℕ → ℕ}
    {c i : ℕ} (h : ∃ k, k < nn ∧ ixs c k = i) (row : ℕ → ℝ) :
    sparseRowFold g nn e d ixs c row i = corrValue g e d c i := by
  unfold sparseRowFold
  obtain ⟨k, hk, hki⟩ := h
  exact foldl_update_mem (ixs c) (fun x => corrValue g e d c x) i
    (List.range nn) row ⟨k, List.mem_range.mpr hk, hki⟩

lemma sparseRowFold_not_mem {g nn : ℕ} {e d : ℕ → ℕ → ℝ} {ixs : ℕ → ℕ → ℕ}
    {c i : ℕ} (h : ∀ k, k < nn → ixs c k ≠ i) (row : ℕ → ℝ) :
    sparseRowFold g nn e d ixs c row i = row i := by
  unfold sparseRowFold
  exact foldl_update_not_mem (ixs c) (fun x => corrValue g e d c x) i
    (List.range nn) row (fun k hk => h k (List.mem_range.mp hk))

lemma sparseFold_skip (g nn : ℕ) (e d : ℕ → ℕ → ℝ) (ixs : ℕ → ℕ → ℕ)
    (c i : ℕ) (hb : bNorm g d c < 1e-10) :
    ∀ (order : List ℕ) (init : ℕ → ℕ → ℝ),
      (order.foldl (sparseStep g nn e d ixs) init) c i = init c i := by
  intro order
  induction order with
  | nil => intro init; rfl
  | cons a l ih =>
    intro init
    rw [List.foldl_cons, ih]
    unfold sparseStep
    by_cases hba : bNorm g d a < 1e-10
    · rw [if_pos hba]
    · rw [if_neg hba]
      have hca : c ≠ a := fun h => hba (h ▸ hb)
      simp [hca]

lemma sparseFold_notmem (g nn : ℕ) (e d : ℕ → ℕ → ℝ) (ixs : ℕ → ℕ → ℕ)
    (c i : ℕ) :
    ∀ (order : List ℕ) (init : ℕ → ℕ → ℝ), c ∉ order →
      (order.foldl (sparseStep g nn e d ixs) init) c i = init c i := by
  intro order
  induction order with
  | nil => intro init _; rfl
  | cons a l ih =>
    intro init hc
    rw [List.foldl_cons, ih _ (fun h => hc (List.mem_cons_of_mem a h))]
    have hca : c ≠ a := fun h => hc (h ▸ List.mem_cons_self a l)
    unfold sparseStep
    by_cases hba : bNorm g d a < 1e-10
    · rw [if_pos hba]
    · rw [if_neg hba]
      simp [hca]

lemma sparseFold_unwritten (g nn : ℕ) (e d : ℕ → ℕ → ℝ) (ixs : ℕ → ℕ → ℕ)
    (c i : ℕ) (hw : ∀ k, k < nn → ixs c k ≠ i) :
    ∀ (order : List ℕ) (init : ℕ → ℕ → ℝ),
      (order.foldl (sparseStep g nn e d ixs) init) c i = init c i := by
  intro order
  induction order with
  | nil => intro init; rfl
  | cons a l ih =>
    intro init
    rw [List.foldl_cons, ih]
    unfold sparseStep
    by_cases hba : bNorm g d a < 1e-10
    · rw [if_pos hba]
    · rw [if_neg hba]
      by_cases hca : c = a
      · subst hca
        simp [sparseRowFold_not_mem hw]
      · simp [hca]

lemma sparseFold_write (g nn : ℕ) (e d : ℕ → ℕ → ℝ) (ixs : ℕ → ℕ → ℕ)
    (c i : ℕ) (hb : ¬ bNorm g d c < 1e-10) (hw : ∃ k, k < nn ∧ ixs c k = i) :
    ∀ (order : List ℕ) (init : ℕ → ℕ → ℝ), c ∈ order →
      (order.foldl (sparseStep g nn e d ixs) init) c i =
        corrValue g e d c i := by
  intro order
  induction order with
  | nil =>
    intro init hc
    exact absurd hc (List.not_mem_nil c)
  | cons a l ih =>
    intro init hc
    rw [List.foldl_cons]
    by_cases hcl : c ∈ l
    · exact ih _ hcl
    · have hca : c = a := by
        rcases List.mem_cons.mp hc with h | h
        · exact h
        · exact absurd h hcl
      subst hca
      rw [sparseFold_notmem g nn e d ixs c i l _ hcl]
      unfold sparseStep
      rw [if_neg hb]
      simp [sparseRowFold_mem hw]

/-- C8: both wrappers are deterministic functions of `E`, `D` (and the
neighbor matrix) alone - the advisory `threads` argument never influences
the result - and each kernel run over any schedule of its columns that
covers `[0, n)` produces, at every in-range entry, the same value as the
corresponding per-entry kernel function; hence any two covering schedules
agree, for the dense and the sparse kernel alike. -/
theorem kernels_deterministic :
    ∀ (emat dmat : MatR) (ixs : MatN) (t₁ t₂ : Option ℕ),
      colDeltaCor emat dmat t₁ = colDeltaCor emat dmat t₂ ∧
      colDeltaCorpartial emat dmat ixs t₁ = colDeltaCorpartial emat dmat ixs t₂ ∧
      (∀ (g n : ℕ) (e d : ℕ → ℕ → ℝ) (order : List ℕ),
        (∀ c, c < n → c ∈ order) →
        ∀ c i, c < n → i < n →
          denseSchedule g n e d order c i = colDeltaCor_numba g e d c i) ∧
      (∀ (g nn n : ℕ) (e d : ℕ → ℕ → ℝ) (ixsf : ℕ → ℕ → ℕ) (order : List ℕ),
        (∀ c, c < n → c ∈ order) →
        ∀ c i, c < n →
          sparseSchedule g nn e d ixsf order c i =
            colDeltaCorpartial_numba g nn e d ixsf c i) := by
  intro emat dmat ixs t₁ t₂
  refine ⟨rfl, rfl, ?_, ?_⟩
  · intro g n e d order hcov c i hc hi
    unfold denseSchedule colDeltaCor_numba
    by_cases hb : bNorm g d c < 1e-10
    · rw [if_pos hb, denseFold_skip g n e d c i hb order _]
    · rw [if_neg hb, denseFold_write g n e d c i hb hi order _ (hcov c hc)]
  · intro g nn n e d ixsf order hcov c i hc
    unfold sparseSchedule colDeltaCorpartial_numba
    by_cases hb : bNorm g d c < 1e-10
    · rw [if_pos hb, sparseFold_skip g nn e d ixsf c i hb order _]
    · rw [if_neg hb]
      by_cases hw : ∃ k, k < nn ∧ ixsf c k = i
      · rw [sparseFold_write g nn e d ixsf c i hb hw order _ (hcov c hc),
          sparseRow_eq_of_mem hw]
      · push_neg at hw
        rw [sparseFold_unwritten g nn e d ixsf c i hw order _,
          sparseRow_eq_of_not_mem hw]

/-- C8 witness: the reversed schedule `[1, 0]` covers the two columns of the
concrete scenario and reproduces the dense kernel entry at `(0, 1)` and the
sparse kernel entry at `(0, 1)` with the all-neighbors matrix. -/
theorem kernels_deterministic_witness :
    (∀ c, c < 2 → c ∈ ([1, 0] : List ℕ)) ∧
      denseSchedule 2 2 E4.entry D4.entry [1, 0] 0 1 =
        colDeltaCor_numba 2 E4.entry D4.entry 0 1 ∧
      sparseSchedule 2 2 E4.entry D4.entry ixsAll.entry [1, 0] 0 1 =
        colDeltaCorpartial_numba 2 2 E4.entry D4.entry ixsAll.entry 0 1 :=
  ⟨by decide,
   (kernels_deterministic E4 D4 ixsAll none none).2.2.1 2 2 E4.entry D4.entry
     [1, 0] (by decide) 0 1 (by norm_num) (by norm_num),
   (kernels_deterministic E4 D4 ixsAll none none).2.2.2 2 2 2 E4.entry
     D4.entry ixsAll.entry [1, 0] (by decide) 0 1 (by norm_num)⟩

/-! ### Concrete scenario evaluation -/

lemma ten_neg10_lt_sqrt_two : (1e-10 : ℝ) < Real.sqrt 2 := by
  calc (1e-10 : ℝ) < 1 := by norm_num
    _ = Real.sqrt 1 := Real.sqrt_one.symm
    _ ≤ Real.sqrt 2 := Real.sqrt_le_sqrt (by norm_num)

lemma D4_bNorm0 : bNorm 2 D4.entry 0 = Real.sqrt (1 / 2) := by
  unfold bNorm bCentered bMean
  norm_num [D4, Finset.sum_range_succ]

lemma D4_bNorm0_not_small : ¬ bNorm 2 D4.entry 0 < 1e-10 := by
  rw [D4_bNorm0, not_lt]
  exact (Real.le_sqrt (by norm_num) (by norm_num)).mpr (by norm_num)

lemma D4_bNorm1 : bNorm 2 D4.entry 1 = Real.sqrt 2 := by
  unfold bNorm bCentered bMean
  norm_num [D4, Finset.sum_range_succ]

lemma D4_bNorm1_not_small : ¬ bNorm 2 D4.entry 1 < 1e-10 := by
  rw [D4_bNorm1, not_lt]
  exact le_of_lt ten_neg10_lt_sqrt_two

lemma E4_aNorm01 : aNorm 2 E4.entry 0 1 = Real.sqrt 2 := by
  unfold aNorm aVal aMean
  norm_num [E4, Finset.sum_range_succ]

lemma E4_aNorm10 : aNorm 2 E4.entry 1 0 = Real.sqrt 2 := by
  unfold aNorm aVal aMean
  norm_num [E4, Finset.sum_range_succ]

lemma E4_num01 : corrNumerator 2 E4.entry D4.entry 0 1 = 1 := by
  unfold corrNumerator aVal aMean bCentered bMean
  norm_num [E4, D4, Finset.sum_range_succ]

lemma E4_num10 : corrNumerator 2 E4.entry D4.entry 1 0 = -2 := by
  unfold corrNumerator aVal aMean bCentered bMean
  norm_num [E4, D4, Finset.sum_range_succ]

lemma E4_corr01 : colDeltaCor_numba 2 E4.entry D4.entry 0 1 = 1 := by
  unfold colDeltaCor_numba corrValue
  rw [if_neg D4_bNorm0_not_small, E4_aNorm01,
    if_pos ten_neg10_lt_sqrt_two, E4_num01, D4_bNorm0]
  rw [← Real.sqrt_mul (by norm_num : (0 : ℝ) ≤ 2)]
  rw [show (2 * (1 / 2) : ℝ) = 1 by norm_num, Real.sqrt_one]
  norm_num

lemma E4_corr10 : colDeltaCor_numba 2 E4.entry D4.entry 1 0 = -1 := by
  unfold colDeltaCor_numba corrValue
  rw [if_neg D4_bNorm1_not_small, E4_aNorm10,
    if_pos ten_neg10_lt_sqrt_two, E4_num10, D4_bNorm1]
  rw [Real.mul_self_sqrt (by norm_num : (0 : ℝ) ≤ 2)]
  norm_num

/-- C4: on the spec's 2-gene, 2-cell scenario `E = [[0,1],[0,3]]`,
`D = [[1,2],[2,4]]` the dense wrapper returns a `2 × 2` matrix equal to
`[[0, 1], [-1, 0]]` exactly (hence within `1e-6`). -/
theorem concrete_scenario_dense :
    colDeltaCor E4 D4 none = Except.ok M4 ∧ M4.shape = (2, 2) ∧
      M4.entry 0 0 = 0 ∧ M4.entry 0 1 = 1 ∧
      M4.entry 1 0 = -1 ∧ M4.entry 1 1 = 0 := by
  refine ⟨?_, rfl, ?_, ?_, ?_, ?_⟩
  · unfold colDeltaCor
    rw [if_neg (by decide : ¬ E4.shape ≠ D4.shape)]
    rfl
  · exact colDeltaCor_numba_diag 2 E4.entry D4.entry 0
  · exact E4_corr01
  · exact E4_corr10
  · exact colDeltaCor_numba_diag 2 E4.entry D4.entry 1

/-! ### Neighbor indices are not validated -/

/-- Result matrix of the sparse wrapper on `E4`, `D4` with the out-of-range
neighbor matrix `ixsBad`. -/
noncomputable def Mbad : MatR :=
  { rows := E4.cols, cols := E4.cols,
    entry := fun c i =>
      colDeltaCorpartial_numba E4.rows ixsBad.cols E4.entry D4.entry
        ixsBad.entry c i }

/-- C10: the sparse wrapper's validation depends only on the shapes, never
on the values inside the neighbor matrix; with `ixsBad` (correct row count,
every entry 99) validation succeeds, and the kernel's row-0 loop reads
column index 99, which is outside `[0, 2)` - the unguarded out-of-bounds
access is reachable. -/
theorem neighbor_values_not_validated :
    (∀ (emat dmat : MatR) (ixs : MatN) (t : Option ℕ),
       (∃ M, colDeltaCorpartial emat dmat ixs t = Except.ok M) ↔
         (emat.shape = dmat.shape ∧ ixs.rows = emat.cols)) ∧
    colDeltaCorpartial E4 D4 ixsBad none = Except.ok Mbad ∧
    99 ∈ sparseVisited 2 1 D4.entry ixsBad.entry 0 ∧
    ¬ (99 < 2) := by
  refine ⟨?_, ?_, ?_, by norm_num⟩
  · intro emat dmat ixs t
    constructor
    · rintro ⟨M, hM⟩
      by_cases h1 : emat.shape = dmat.shape
      · by_cases h2 : ixs.rows = emat.cols
        · exact ⟨h1, h2⟩
        · simp [ colDeltaCorpartial, h1, h2] at hM
      · simp [ colDeltaCorpartial, h1] at hM
    · rintro ⟨h1, h2⟩
      refine ⟨⟨emat.cols, emat.cols, fun c i =>
        colDeltaCorpartial_numba emat.rows ixs.cols emat.entry dmat.entry
          ixs.entry c i⟩, ?_⟩
      unfold colDeltaCorpartial
      rw [if_neg (not_not_intro h1), if_neg (not_not_intro h2)]
  · unfold colDeltaCorpartial
    rw [if_neg (by decide : ¬ E4.shape ≠ D4.shape),
      if_neg (by decide : ¬ ixsBad.rows ≠ E4.cols)]
    rfl
  · have hv : sparseVisited 2 1 D4.entry ixsBad.entry 0 = [99] := by
      unfold sparseVisited
      rw [if_neg D4_bNorm0_not_small]
      rfl
    rw [hv]
    exact List.mem_singleton.mpr rfl
